import Mathlib

/-!
Verification of the batch-parsing normalization and mapping engine
(`data_normalizer.py`, `parser.py`): a shallow embedding of the Python
string primitives the code relies on, the `DataNormalizer` methods, the
`BatchParser.map_row` field mapper, and an abstract state model of
`BatchParser.parse_and_store` over the two stores.

Strings are modelled as Lean `String` (a wrapper of `List Char`); the
Python `str` methods used by the code (`lower`, `strip`, `split`,
`title`, `capitalize`, `replace`, `isupper`, `isdigit` filtering) are
embedded faithfully for the character repertoire the program handles
(ASCII plus the Latin-1 accented letters appearing in the alias table).
-/

namespace ECard

/-! ## Python string primitives -/

/-- Whitespace characters recognized by Python `str.strip` / `str.split`:
space, tab, newline, carriage return, vertical tab, form feed
(code points 32, 9, 10, 13, 11, 12). -/
def isSpaceChar (c : Char) : Bool :=
  [32, 9, 10, 13, 11, 12].contains c.toNat

/-- Code points of the uppercase accented letters in the program's data:
Á É Í Ñ Ó Ú Ü. -/
def upperAccentCodes : List Nat := [193, 201, 205, 209, 211, 218, 220]

/-- Code points of the lowercase accented letters: á é í ñ ó ú ü. -/
def lowerAccentCodes : List Nat := [225, 233, 237, 241, 243, 250, 252]

/-- Uppercase (cased) characters of the modelled repertoire. -/
def pyIsUpperChar (c : Char) : Bool :=
  (65 ≤ c.toNat && c.toNat ≤ 90) || upperAccentCodes.contains c.toNat

/-- Lowercase (cased) characters of the modelled repertoire. -/
def pyIsLowerChar (c : Char) : Bool :=
  (97 ≤ c.toNat && c.toNat ≤ 122) || lowerAccentCodes.contains c.toNat

/-- Cased characters (Python's notion used by `str.title` / `str.isupper`). -/
def pyIsCased (c : Char) : Bool := pyIsUpperChar c || pyIsLowerChar c

/-- ASCII letters; used to scope theorems about casing of plain words. -/
def pyIsAsciiAlpha (c : Char) : Bool :=
  (65 ≤ c.toNat && c.toNat ≤ 90) || (97 ≤ c.toNat && c.toNat ≤ 122)

/-- Lowercase conversion: both the ASCII and the Latin-1 uppercase letters
sit exactly 32 code points below their lowercase forms. -/
def pyLowerChar (c : Char) : Char :=
  if pyIsUpperChar c then Char.ofNat (c.toNat + 32) else c

/-- Uppercase conversion, inverse direction of `pyLowerChar`. -/
def pyUpperChar (c : Char) : Char :=
  if pyIsLowerChar c then Char.ofNat (c.toNat - 32) else c

/-- Python `str.lower`. -/
def pyLowerStr (s : String) : String := String.mk (s.data.map pyLowerChar)

/-- Accent removal for one (already lowercased) character, as performed by
`unicodedata.normalize("NFD", ...)` followed by dropping combining marks. -/
def stripAccentChar (c : Char) : Char :=
  if c.toNat == 225 then 'a'
  else if c.toNat == 233 then 'e'
  else if c.toNat == 237 then 'i'
  else if c.toNat == 241 then 'n'
  else if c.toNat == 243 then 'o'
  else if c.toNat == 250 then 'u'
  else if c.toNat == 252 then 'u'
  else c

/-- Drop leading whitespace of a character list. -/
def dropLeadingSpace : List Char → List Char
  | [] => []
  | c :: cs => if isSpaceChar c then dropLeadingSpace cs else c :: cs

/-- Python `str.strip` on a character list. -/
def pyStripList (cs : List Char) : List Char :=
  (dropLeadingSpace (dropLeadingSpace cs).reverse).reverse

/-- Python `str.strip`. -/
def pyStrip (s : String) : String := String.mk (pyStripList s.data)

/-- Python `str.split()` (no argument): split on whitespace runs, dropping
empty pieces. The accumulator holds the current word reversed. -/
def pySplitAux : List Char → List Char → List (List Char)
  | [], acc => if acc.isEmpty then [] else [acc.reverse]
  | c :: cs, acc =>
    if isSpaceChar c then
      if acc.isEmpty then pySplitAux cs [] else acc.reverse :: pySplitAux cs []
    else pySplitAux cs (c :: acc)

/-- Python `str.split()`. -/
def pySplit (s : String) : List String := (pySplitAux s.data []).map String.mk

/-- Python `str.title` on a character list: a cased character is lowercased
when the previous character was cased, uppercased otherwise. -/
def pyTitleList : Bool → List Char → List Char
  | _, [] => []
  | prevCased, c :: cs =>
    (if prevCased then pyLowerChar c else pyUpperChar c) :: pyTitleList (pyIsCased c) cs

/-- Python `str.title`. -/
def pyTitle (s : String) : String := String.mk (pyTitleList false s.data)

/-- Python `str.capitalize`: first character uppercased, the rest lowercased. -/
def pyCapitalize (s : String) : String :=
  match s.data with
  | [] => ""
  | c :: cs => String.mk (pyUpperChar c :: cs.map pyLowerChar)

/-- Python `str.isupper`: at least one cased character and no lowercase one. -/
def pyIsUpperStr (s : String) : Bool :=
  s.data.any pyIsCased && s.data.all (fun c => !pyIsCased c || pyIsUpperChar c)

/-- Python `str.replace` scan: replace every non-overlapping occurrence of
`pat`, scanning left to right. The first argument counts matched
characters still to be consumed after a replacement was emitted, keeping
the recursion structural on the subject list. -/
def pyReplaceAux (pat rep : List Char) : Nat → List Char → List Char
  | _, [] => []
  | skip + 1, _ :: cs => pyReplaceAux pat rep skip cs
  | 0, c :: cs =>
    if pat.isPrefixOf (c :: cs) then
      rep ++ pyReplaceAux pat rep (pat.length - 1) cs
    else c :: pyReplaceAux pat rep 0 cs

/-- Python `str.replace` on character lists (only called with `pat ≠ []`). -/
def pyReplaceList (pat rep : List Char) (s : List Char) : List Char :=
  if pat.isEmpty then s else pyReplaceAux pat rep 0 s

/-- Python `str.replace`. -/
def pyReplace (s pat rep : String) : String :=
  String.mk (pyReplaceList pat.data rep.data s.data)

/-- Python `sep.join(l)` for a list of strings. -/
def pyJoin (sep : String) : List String → String
  | [] => ""
  | [w] => w
  | w :: ws => w ++ sep ++ pyJoin sep ws

/-- Python `s.startswith("+")`. -/
def pyStartsWithPlus (s : String) : Bool :=
  match s.data with
  | [] => false
  | c :: _ => c == '+'

/-- Python `s.endswith(".0")`. -/
def pyEndsWithDot0 (s : String) : Bool :=
  List.isSuffixOf ['.', '0'] s.data

/-! ## Parenthesized-span extraction

`format_field` uses Python regex substitution over the pattern
matching a literal open parenthesis, one or more characters other than a
close parenthesis, then a close parenthesis: each matched span becomes a
numbered placeholder and is recorded for later restoration. The scanner
below is the state machine equivalent of that leftmost substitution: the
second argument is `none` outside a candidate span and `some acc` while
accumulating (reversed) span content after an open parenthesis. -/

/-- Scan characters replacing parenthesized spans with placeholders;
returns the rewritten characters and the insertion-ordered table of
(placeholder, original span) pairs. -/
def parenScanAux : Nat → List Char → Option (List Char) → List Char × List (String × String)
  | _, [], none => ([], [])
  | _, [], some acc => ('(' :: acc.reverse, [])
  | n, c :: cs, none =>
    if c == '(' then parenScanAux n cs (some [])
    else
      let r := parenScanAux n cs none
      (c :: r.1, r.2)
  | n, c :: cs, some acc =>
    if c == ')' then
      if acc.isEmpty then
        let r := parenScanAux n cs none
        ('(' :: ')' :: r.1, r.2)
      else
        let ph := "__PAREN_" ++ Nat.repr n ++ "__"
        let orig := String.mk ('(' :: (acc.reverse ++ [')']))
        let r := parenScanAux (n + 1) cs none
        (ph.data ++ r.1, (ph, orig) :: r.2)
    else parenScanAux n cs (some (c :: acc))

/-- Extract parenthesized spans of a string (see `parenScanAux`). -/
def parenExtract (s : String) : String × List (String × String) :=
  let r := parenScanAux 0 s.data none
  (String.mk r.1, r.2)

/-! ## DataNormalizer (`data_normalizer.py`) -/

/-- Articles and prepositions kept lowercase by `smart_title_case`
(`data_normalizer.py` lines 96-103). -/
def lowercaseWords : List String :=
  ["de", "del", "la", "las", "los", "y", "el", "un", "una", "unos", "unas",
   "en", "con", "sin", "por", "para", "desde", "hasta",
   "a", "an", "the", "of", "and", "or", "in", "on", "at", "to", "for",
   "with", "from", "by", "as", "is", "was", "are", "were"]

/-- `DataNormalizer.smart_title_case`: capitalize every word except
stop-list words in the middle; first and last word always capitalized. -/
def smart_title_case (text : String) : String :=
  let words := pySplit text
  if words.isEmpty then text
  else
    pyJoin " " (words.enum.map (fun p =>
      if p.1 = 0 || p.1 = words.length - 1 then pyCapitalize p.2
      else if lowercaseWords.contains (pyLowerStr p.2) then pyLowerStr p.2
      else pyCapitalize p.2))

/-- Fields lowercased by `format_field` (emails, URLs, handles). -/
def emailLikeFields : List String :=
  ["email", "business_url", "personal_url", "business_linkedin",
   "social_instagram", "social_twitter", "social_facebook"]

/-- Fields given smart title case by `format_field`. -/
def smartTitleFields : List String :=
  ["address_street", "address_city", "address_state", "address_country",
   "business_title", "business_department",
   "business_address_street", "business_address_city",
   "business_address_state", "business_address_country"]

/-- `DataNormalizer.format_field`: field-keyed formatting. Business names
pass through verbatim; email-like fields are lowercased; smart-title
fields get `smart_title_case` with parenthesized spans extracted first
and spliced back by replacing the raw placeholder; all other fields get
`str.title` with the spans spliced back by replacing the titled
placeholder. -/
def format_field (key : String) (value : String) : String :=
  if pyStrip value = "" then ""
  else
    let text := pyStrip value
    if key = "business_name" then text
    else if emailLikeFields.contains key then pyLowerStr text
    else if smartTitleFields.contains key then
      let pr := parenExtract text
      let formatted := smart_title_case pr.1
      pr.2.foldl (fun acc p => pyReplace acc p.1 p.2) formatted
    else
      let pr := parenExtract text
      let formatted := pyTitle pr.1
      pr.2.foldl (fun acc p => pyReplace acc (pyTitle p.1) p.2) formatted

/-- Null-like phone inputs mapped to the empty string. -/
def nanLikes : List String := ["nan", "none", "null"]

/-- Python truthiness of an optional string (`None` and `""` are falsy). -/
def truthyOpt : Option String → Bool
  | some s => !(s == "")
  | none => false

/-- Digit-only form of a phone string (`filter(str.isdigit, ...)`). -/
def phoneDigits (rawStr : String) : List Char := rawStr.data.filter Char.isDigit

/-- Digits after the work-phone rule of `normalize_phone` (lines 228-231):
a 4-digit work number gets the configured work-phone number part
prepended when one is configured. -/
def phoneDigitsAfter (rawStr phoneType : String) (wpPref : Option String) : List Char :=
  let digits := phoneDigits rawStr
  if phoneType = "work" && digits.length == 4 && truthyOpt wpPref then
    (wpPref.getD "").data ++ digits
  else digits

/-- `DataNormalizer.normalize_phone`: ordered phone canonicalization
rules of `data_normalizer.py` lines 186-245. -/
def normalize_phone (phoneRaw : String) (phoneType : String)
    (wpPref countryCode : Option String) : String :=
  if pyStrip phoneRaw = "" then ""
  else
    let rawStr := pyStrip phoneRaw
    if nanLikes.contains (pyLowerStr rawStr) then ""
    else if pyStartsWithPlus rawStr then rawStr
    else
      let digits0 := phoneDigits rawStr
      if digits0.length ≤ 3 then String.mk digits0
      else
        let digits := phoneDigitsAfter rawStr phoneType wpPref
        if digits.length ≠ 8 then rawStr
        else if truthyOpt countryCode then
          (countryCode.getD "") ++ " " ++ String.mk (digits.take 4) ++ "-"
            ++ String.mk (digits.drop 4)
        else String.mk (digits.take 4) ++ "-" ++ String.mk (digits.drop 4)

/-! ## Name parsing (`DataNormalizer.parse_name`) -/

/-- Common Spanish given names (`data_normalizer.py` lines 70-81). -/
def spanishGivenNames : List String :=
  ["jose", "maria", "juan", "carlos", "luis", "ana", "pedro", "francisco",
   "miguel", "antonio", "manuel", "jesus", "raul", "eduardo", "alberto",
   "jorge", "roberto", "ricardo", "fernando", "rafael", "andres", "diego",
   "daniel", "alejandro", "javier", "sergio", "pablo", "enrique", "ramon",
   "sofia", "isabel", "carmen", "rosa", "laura", "patricia", "monica",
   "andrea", "cristina", "elena", "teresa", "beatriz", "silvia", "marta",
   "valeria", "gabriela", "carolina", "paula", "adriana", "natalia",
   "alexander", "david", "victor", "william", "stephanie", "melissa",
   "jessica", "michael", "kevin", "steven", "jonathan", "christopher",
   "oscar", "gustavo", "esteban", "tatiana", "viviana"]

/-- Surname-linking words (source name `spanish_surname_prefixes`,
`data_normalizer.py` lines 83-85). -/
def spanishSurnameLinkers : List String :=
  ["de", "del", "la", "los", "las", "y", "von", "van", "di", "da", "dos",
   "angeles"]

/-- `DataNormalizer._normalize_word`: lowercase, then strip accents. -/
def normWord (w : String) : String :=
  String.mk ((pyLowerStr w).data.map stripAccentChar)

/-- Parsed-name result (the dictionary returned by `parse_name`). -/
structure ParsedName where
  first_name : String
  last_name : String
  full_name : String
  business_title : String
  suffix : String
deriving Repr, DecidableEq

/-- Tier-1 Spanish surname-first detection flag (`parse_name` lines
278-293): normal order when the first token is a known given name; for
exactly 4 tokens, Spanish order iff tokens 2 and 3 are both given names;
otherwise Spanish order when the whole raw string is uppercase with at
least 3 tokens. -/
def isSpanishFormat (rawName : String) (nameParts : List String) : Bool :=
  if 2 ≤ nameParts.length then
    if spanishGivenNames.contains (normWord (nameParts.getD 0 "")) then false
    else if nameParts.length = 4 then
      spanishGivenNames.contains (normWord (nameParts.getD 2 "")) &&
        spanishGivenNames.contains (normWord (nameParts.getD 3 ""))
    else if pyIsUpperStr rawName && 3 ≤ nameParts.length then true
    else false
  else false

/-- Count of trailing tokens (scanning from the end) that are given names
or surname-linking words (`parse_name` lines 309-316). -/
def countTrailingGiven : List String → Nat
  | [] => 0
  | w :: ws =>
    if spanishGivenNames.contains (normWord w)
        || spanishSurnameLinkers.contains (normWord w) then
      1 + countTrailingGiven ws
    else 0

/-- Trailing given-name count of a token list (the loop scans from the
last token backwards). -/
def givenNameTrailingCount (nameParts : List String) : Nat :=
  countTrailingGiven nameParts.reverse

/-- Result fields of the external Western-name parser. -/
structure HumanNameModel where
  first : String
  middle : String
  last : String
  title : String
  suffix : String
deriving Repr, DecidableEq

/-- Modelled from the spec: the external Western-name-parsing capability
(the third-party `nameparser.HumanName`, not part of src/) that §4.2
step 5 delegates to for names of at most 2 tokens, extracting
first/middle/last/title/suffix. Modelled minimally for short names:
one token is a first name, two tokens are first and last name. -/
def humanNameParse (raw : String) : HumanNameModel :=
  match pySplit raw with
  | [] => ⟨"", "", "", "", ""⟩
  | [t0] => ⟨t0, "", "", "", ""⟩
  | [t0, t1] => ⟨t0, "", t1, "", ""⟩
  | t0 :: rest => ⟨t0, pyJoin " " rest.dropLast, (rest.getLast?).getD "", "", ""⟩

/-- Token list used by `parse_name`: split the stripped raw name on
whitespace and keep the non-empty parts. -/
def nameTokens (rawName : String) : List String :=
  (pySplit rawName).filter (fun p => !(p == ""))

/-- Tier selection of `parse_name` (lines 295-352): the computed
(first, last, title, suffix) quadruple before the final title casing. -/
def parseNameCore (rawName : String) (nameParts : List String) :
    String × String × String × String :=
  if isSpanishFormat rawName nameParts then
    if nameParts.length = 2 then
      (nameParts.getD 1 "", nameParts.getD 0 "", "", "")
    else if nameParts.length = 3 then
      if spanishGivenNames.contains (normWord (nameParts.getD 2 "")) then
        (nameParts.getD 2 "", pyJoin " " (nameParts.take 2), "", "")
      else
        (nameParts.getD 2 "", pyJoin " " (nameParts.take 2), "", "")
    else if 4 ≤ nameParts.length then
      if 2 ≤ givenNameTrailingCount nameParts then
        (pyJoin " " (nameParts.drop 2), pyJoin " " (nameParts.take 2), "", "")
      else
        (pyJoin " " (nameParts.drop 2), pyJoin " " (nameParts.take 2), "", "")
    else ("", "", "", "")
  else
    if nameParts.length = 3 then
      (nameParts.getD 0 "", pyJoin " " (nameParts.drop 1), "", "")
    else if 4 ≤ nameParts.length then
      if spanishGivenNames.contains (normWord (nameParts.getD 0 ""))
          && spanishGivenNames.contains (normWord (nameParts.getD 1 "")) then
        (pyJoin " " (nameParts.take 2), pyJoin " " (nameParts.drop 2), "", "")
      else
        (nameParts.getD 0 "", pyJoin " " (nameParts.drop 1), "", "")
    else
      let hn := humanNameParse rawName
      let fn := pyStrip (hn.first ++ " " ++ hn.middle)
      let ln := hn.last
      if fn = "" ∧ ln = "" then
        if 2 ≤ nameParts.length then
          (nameParts.getD 0 "", pyJoin " " (nameParts.drop 1), hn.title, hn.suffix)
        else (rawName, "", hn.title, hn.suffix)
      else (fn, ln, hn.title, hn.suffix)

/-- `DataNormalizer.parse_name` (lines 247-363): tiered name-splitting
heuristic producing title-cased first/last/full name components. -/
def parse_name (fullName : String) : ParsedName :=
  if pyStrip fullName = "" then ⟨"", "", "", "", ""⟩
  else
    let rawName := pyStrip fullName
    let nameParts := nameTokens rawName
    if nameParts.length = 0 then ⟨"", "", "", "", ""⟩
    else
      let fltsu := parseNameCore rawName nameParts
      let firstName := fltsu.1
      let lastName := fltsu.2.1
      let title := fltsu.2.2.1
      let sfx := fltsu.2.2.2
      let properFullName := pyStrip (firstName ++ " " ++ lastName)
      { first_name := if firstName ≠ "" then pyTitle firstName else ""
        last_name := if lastName ≠ "" then pyTitle lastName else ""
        full_name := if properFullName ≠ "" then pyTitle properFullName
                     else pyTitle rawName
        business_title := if title ≠ "" then pyTitle title else ""
        suffix := sfx }

/-! ## Field mapping (`parser.py`, `BatchParser.map_row`) -/

/-- The alias table `FIELD_MAPPING` of `data_normalizer.py` lines 17-61:
canonical field name paired with its ordered alias list. -/
def FIELD_MAPPING : List (String × List String) :=
  [("first_name", ["first_name", "firstName", "first name", "firstname",
      "fname", "given name", "nombre"]),
   ("last_name", ["last_name", "lastName", "last name", "lastname", "lname",
      "surname", "family name", "apellidos"]),
   ("full_name", ["full_name", "fullName", "full name", "nombre completo"]),
   ("email", ["email", "e-mail", "mail", "email address", "correo",
      "correo electrónico", "correo electronico"]),
   ("work_phone", ["work_phone", "workPhone", "work phone", "office phone",
      "business phone", "tel", "phone", "telefono", "teléfono",
      "telefono ofi", "teléfono ofi"]),
   ("work_phone_ext", ["work_phone_ext", "ext", "extension", "extensión"]),
   ("mobile_phone", ["mobile_phone", "mobilePhone", "mobile", "cell",
      "cellular", "mobile phone", "cell phone", "celular", "móvil"]),
   ("address_street", ["address_street", "address", "street",
      "street address", "dirección", "direccion", "calle"]),
   ("address_city", ["address_city", "city", "town", "ciudad"]),
   ("address_state", ["address_state", "state", "province", "region",
      "estado", "provincia"]),
   ("address_postal", ["address_postal", "zip", "postal", "zip code",
      "postal code", "código postal", "codigo postal"]),
   ("address_country", ["address_country", "country", "nation", "país",
      "pais"]),
   ("social_instagram", ["social_instagram", "instagram", "ig"]),
   ("social_twitter", ["social_twitter", "twitter", "x"]),
   ("social_facebook", ["social_facebook", "facebook", "fb"]),
   ("business_name", ["business_name", "organization", "company", "business",
      "org", "empresa"]),
   ("business_title", ["business_title", "title", "job title", "position",
      "role", "puesto", "cargo"]),
   ("business_department", ["business_department", "department", "dept",
      "departamento", "area"]),
   ("business_url", ["business_url", "website", "url", "web", "sitio web"]),
   ("business_hours", ["business_hours", "hours", "business hours",
      "horario"]),
   ("business_address_street", ["business_address_street", "business address",
      "business street", "dirección trabajo"]),
   ("business_address_city", ["business_address_city", "business city",
      "ciudad trabajo"]),
   ("business_address_state", ["business_address_state", "business state",
      "estado trabajo"]),
   ("business_address_postal", ["business_address_postal", "business zip",
      "postal trabajo"]),
   ("business_address_country", ["business_address_country",
      "business country", "país trabajo"]),
   ("business_linkedin", ["business_linkedin", "linkedin", "li"]),
   ("business_twitter", ["business_twitter", "company twitter"]),
   ("personal_url", ["personal_url", "personal website", "personal url",
      "sitio personal"]),
   ("personal_bio", ["personal_bio", "notes", "comments", "description",
      "notas", "comentarios", "bio", "biography"]),
   ("personal_birthday", ["personal_birthday", "birthday", "dob",
      "cumpleaños", "fecha nacimiento"])]

/-- Name fields copied through unformatted by `map_row` (the Name Parser
needs the original casing). -/
def nameFields : List String := ["first_name", "last_name", "full_name"]

/-- Normalized view of a row: `row_keys = {str(k).lower().strip(): k}`
keeps the last label per normalized key, and the only use of the original
label is to fetch the cell value, so the pair (normalized label, value)
captures it. Rows are ordered (label, value) lists with distinct labels. -/
def normRow (row : List (String × String)) : List (String × String) :=
  row.map (fun p => (pyStrip (pyLowerStr p.1), p.2))

/-- Lookup in the normalized row; the Python dict comprehension keeps the
last entry for a duplicated normalized key, hence the reverse search. -/
def rowLookup (nrow : List (String × String)) (key : String) : Option String :=
  (nrow.reverse.find? (fun p => p.1 == key)).map (fun p => p.2)

/-- Cell-value preprocessing of `map_row` (lines 224-231): strip, drop a
trailing ".0" spreadsheet artifact, and treat "" and "0" as absent. -/
def usableValue (v : String) : Option String :=
  let v1 := pyStrip v
  let v2 := if pyEndsWithDot0 v1 then String.mk (v1.data.take (v1.data.length - 2))
            else v1
  if v2 = "" ∨ v2 = "0" then none else some v2

/-- The per-field alias loop of `map_row` (lines 218-239): scan aliases in
declared order; a matched but unusable cell falls through to the next
alias (the `continue`); the first usable value is formatted (unless the
field is a name field) and ends the scan (the `break`). -/
def mapFieldLoop (field : String) (nrow : List (String × String)) :
    List String → Option String
  | [] => none
  | a :: rest =>
    match rowLookup nrow (pyLowerStr a) with
    | none => mapFieldLoop field nrow rest
    | some val =>
      match usableValue val with
      | none => mapFieldLoop field nrow rest
      | some v =>
        some (if nameFields.contains field then v else format_field field v)

/-- First pass of `map_row` over a normalized row: one entry per canonical
field in `FIELD_MAPPING` order (`None` when no alias supplied a value). -/
def mapCoreN (nrow : List (String × String)) : List (String × Option String) :=
  FIELD_MAPPING.map (fun p => (p.1, mapFieldLoop p.1 nrow p.2))

/-- First pass of `map_row` on a raw row. -/
def mapCore (row : List (String × String)) : List (String × Option String) :=
  mapCoreN (normRow row)

/-- Dictionary read on the mapped-fields list (`mapped.get(k)`). -/
def mget (m : List (String × Option String)) (k : String) : Option String :=
  match m.find? (fun p => p.1 == k) with
  | some p => p.2
  | none => none

/-- Dictionary write on the mapped-fields list (`mapped[k] = v`; every
canonical key is already present, so order is preserved). -/
def mset (m : List (String × Option String)) (k : String) (v : Option String) :
    List (String × Option String) :=
  m.map (fun p => if p.1 == k then (p.1, v) else p)

/-- `BatchParser.map_row` (lines 206-258): alias-resolve every canonical
field, then split a whitespace-containing lone `first_name` via
`parse_name`, then normalize the two phone fields. The phone calls pass
only the raw value, so `phone_type` defaults to "other" and no work-phone
number part and no country code are configured. -/
def map_row (row : List (String × String)) : List (String × Option String) :=
  let m0 := mapCore row
  let m1 :=
    if truthyOpt (mget m0 "first_name") && !(truthyOpt (mget m0 "last_name")) then
      let fullName := (mget m0 "first_name").getD ""
      if fullName.data.contains ' ' then
        let pn := parse_name fullName
        mset (mset (mset m0 "first_name" (some pn.first_name))
          "last_name" (some pn.last_name)) "full_name" (some pn.full_name)
      else m0
    else m0
  let m2 :=
    if truthyOpt (mget m1 "mobile_phone") then
      mset m1 "mobile_phone"
        (some (normalize_phone ((mget m1 "mobile_phone").getD "") "other" none none))
    else m1
  if truthyOpt (mget m2 "work_phone") then
    mset m2 "work_phone"
      (some (normalize_phone ((mget m2 "work_phone").getD "") "other" none none))
  else m2

/-- Specification-side reading of the per-field alias scan used to settle
the first-match claim: the first alias (in declared order) whose lookup
yields a usable value supplies the field. -/
def firstUsableAlias (nrow : List (String × String)) (aliases : List String) :
    Option String :=
  aliases.findSome? (fun a => (rowLookup nrow (pyLowerStr a)).bind usableValue)

/-! ## Dual-store commit protocol (`BatchParser.parse_and_store`,
`BatchParser.insert_record`, `BatchParser.update_batch_status`)

The stores and the per-row processing outcomes are abstracted: each row
carries a payload (its record, abstracted to a number), three flags
saying whether mapping, the PostgreSQL insert, and the Cassandra insert
succeed for it, and the message of the exception raised when one fails.
PostgreSQL insert → autocommit-off pending list, moved to the committed
list by `pg_conn.commit()` (issued at the 100-row checkpoints, at the
end of the loop, and by every `update_batch_status` call, including the
one recording ERROR). Cassandra has no transaction: its insert commits
per row. Status updates themselves are assumed to succeed. -/

/-- Abstracted row of a batch together with its processing outcomes. -/
structure BatchRow where
  payload : Nat
  mapOk : Bool
  pgOk : Bool
  casOk : Bool
  errMsg : String
deriving Repr, DecidableEq

/-- Observable batch-processing state: status, recorded error, counters,
PostgreSQL pending and committed narrow rows, Cassandra wide rows,
whether the PostgreSQL transaction is aborted (a failed INSERT leaves
psycopg2 in "current transaction is aborted" state until a rollback),
and whether an exception escaped `parse_and_store` to `main`. -/
structure BatchState where
  status : String
  errorMessage : Option String
  recordsCount : Option Nat
  recordsProcessed : Option Nat
  pgPending : List Nat
  pgCommitted : List Nat
  casRows : List Nat
  processed : Nat
  pgAborted : Bool
  escaped : Bool
deriving Repr, DecidableEq

/-- `pg_conn.commit()` on a healthy transaction: pending narrow-store
inserts become durable (only ever reached with `pgAborted = false`). -/
def pgCommitAll (s : BatchState) : BatchState :=
  { s with pgCommitted := s.pgCommitted ++ s.pgPending, pgPending := [] }

/-- `update_batch_status("ERROR", msg)` (parser.py lines 172-204). On a
healthy transaction the UPDATE succeeds and `pg_conn.commit()` makes the
ERROR status and any pending narrow-store inserts durable. On a
transaction aborted by a failed INSERT, `cursor.execute` raises, and the
handler at lines 200-204 rolls back — discarding the pending narrow
inserts — and re-raises, so the stored status stays as it was and the
exception escapes `parse_and_store`. -/
def setError (s : BatchState) (msg : String) : BatchState :=
  if s.pgAborted then
    { s with pgPending := [], escaped := true }
  else
    let s1 := pgCommitAll s
    { s1 with status := "ERROR", errorMessage := some msg }

/-- `update_batch_status("PARSED", total, done)` with its commit (only
reached on the all-rows-succeeded path, transaction healthy). -/
def setParsed (s : BatchState) (total done : Nat) : BatchState :=
  let s1 := pgCommitAll s
  { s1 with status := "PARSED", recordsCount := some total,
            recordsProcessed := some done }

/-- One fully successful row of the loop: PostgreSQL INSERT appends to
the pending list, the Cassandra INSERT commits the wide row, the counter
advances, and every 100 processed rows the narrow store is committed. -/
def stepOkRow (r : BatchRow) (s : BatchState) : BatchState :=
  let s1 := { s with pgPending := s.pgPending ++ [r.payload] }
  let s2 := { s1 with casRows := s1.casRows ++ [r.payload],
                      processed := s1.processed + 1 }
  if s2.processed % 100 = 0 then pgCommitAll s2 else s2

/-- The row loop of `parse_and_store` (lines 394-424): map the row, insert
into PostgreSQL then Cassandra (`insert_record`), count it, commit the
narrow store every 100 rows. Any failure reaches the ERROR update: after
a mapping or Cassandra failure the transaction is healthy; after a
failed PostgreSQL INSERT it is aborted (`pgAborted`), and when the
Cassandra insert fails the pending list already holds the row's narrow
insert. An exhausted list takes the final commit and the PARSED update. -/
def processRows (total : Nat) : List BatchRow → BatchState → BatchState
  | [], s =>
    let s1 := pgCommitAll s
    setParsed s1 total s1.processed
  | r :: rest, s =>
    if !r.mapOk then setError s r.errMsg
    else if !r.pgOk then setError { s with pgAborted := true } r.errMsg
    else if !r.casOk then
      setError { s with pgPending := s.pgPending ++ [r.payload] } r.errMsg
    else processRows total rest (stepOkRow r s)

/-- Initial state after the PARSING status update. -/
def initialBatchState : BatchState :=
  { status := "PARSING", errorMessage := none, recordsCount := none,
    recordsProcessed := none, pgPending := [], pgCommitted := [],
    casRows := [], processed := 0, pgAborted := false, escaped := false }

/-- State advance over a prefix of fully successful rows. -/
def advanceRows : List BatchRow → BatchState → BatchState
  | [], s => s
  | r :: pre, s => advanceRows pre (stepOkRow r s)

/-- `BatchParser.parse_and_store` over the abstracted rows: PARSING, then
the row loop; an empty extraction is the batch-fatal ValueError. -/
def parse_and_store (rows : List BatchRow) : BatchState :=
  if rows.isEmpty then setError initialBatchState "No data extracted from file"
  else processRows rows.length rows initialBatchState

/-- Full success of one abstracted row. -/
def rowOk (r : BatchRow) : Prop := r.mapOk = true ∧ r.pgOk = true ∧ r.casOk = true

instance (r : BatchRow) : Decidable (rowOk r) := by
  unfold rowOk; infer_instance

/-! ## Helper lemmas -/

theorem charOfNat_toNat {n : Nat} (h : n.isValidChar) : (Char.ofNat n).toNat = n := by
  simp [Char.ofNat, h, Char.toNat, Char.ofNatAux, UInt32.toNat, UInt32.ofNatCore]

theorem string_ne_empty_iff (s : String) : s ≠ "" ↔ s.data ≠ [] :=
  ⟨fun h hd => h (congrArg String.mk hd), fun h he => h (congrArg String.data he)⟩

theorem mk_append_mk (a b : List Char) : String.mk a ++ String.mk b = String.mk (a ++ b) :=
  rfl

theorem alpha_toNat_bounds {c : Char} (h : pyIsAsciiAlpha c = true) :
    (65 ≤ c.toNat ∧ c.toNat ≤ 90) ∨ (97 ≤ c.toNat ∧ c.toNat ≤ 122) := by
  simpa [pyIsAsciiAlpha] using h

theorem pyIsUpperChar_iff (c : Char) :
    pyIsUpperChar c = true ↔
      (65 ≤ c.toNat ∧ c.toNat ≤ 90) ∨
        c.toNat ∈ ([193, 201, 205, 209, 211, 218, 220] : List Nat) := by
  simp [pyIsUpperChar, upperAccentCodes, List.elem_iff]

theorem pyIsLowerChar_iff (c : Char) :
    pyIsLowerChar c = true ↔
      (97 ≤ c.toNat ∧ c.toNat ≤ 122) ∨
        c.toNat ∈ ([225, 233, 237, 241, 243, 250, 252] : List Nat) := by
  simp [pyIsLowerChar, lowerAccentCodes, List.elem_iff]

theorem pyIsCased_of_alpha {c : Char} (h : pyIsAsciiAlpha c = true) :
    pyIsCased c = true := by
  rcases alpha_toNat_bounds h with hb | hb
  · simp only [pyIsCased, Bool.or_eq_true]
    exact Or.inl ((pyIsUpperChar_iff c).mpr (Or.inl hb))
  · simp only [pyIsCased, Bool.or_eq_true]
    exact Or.inr ((pyIsLowerChar_iff c).mpr (Or.inl hb))

theorem not_space_of_alpha {c : Char} (h : pyIsAsciiAlpha c = true) :
    isSpaceChar c = false := by
  have hb := alpha_toNat_bounds h
  rw [Bool.eq_false_iff]
  intro hs
  simp only [isSpaceChar, List.elem_iff, List.mem_cons, List.not_mem_nil,
    or_false] at hs
  omega

theorem not_lparen_of_alpha {c : Char} (h : pyIsAsciiAlpha c = true) :
    (c == '(') = false := by
  rw [beq_eq_false_iff_ne]
  intro hc
  subst hc
  exact absurd h (by decide)

theorem upper_of_ascii_upper {c : Char} (h1 : 65 ≤ c.toNat) (h2 : c.toNat ≤ 90) :
    pyIsUpperChar c = true :=
  (pyIsUpperChar_iff c).mpr (Or.inl ⟨h1, h2⟩)

theorem not_upper_of_ascii_lower {c : Char} (h1 : 97 ≤ c.toNat) (h2 : c.toNat ≤ 122) :
    pyIsUpperChar c = false := by
  rw [Bool.eq_false_iff]
  intro hx
  rcases (pyIsUpperChar_iff c).mp hx with hb | hb
  · omega
  · simp only [List.mem_cons, List.not_mem_nil, or_false] at hb
    omega

theorem pyLowerChar_not_upper_of_alpha {c : Char} (h : pyIsAsciiAlpha c = true) :
    pyIsUpperChar (pyLowerChar c) = false := by
  rcases alpha_toNat_bounds h with ⟨h1, h2⟩ | ⟨h1, h2⟩
  · have hcase : pyIsUpperChar c = true := upper_of_ascii_upper h1 h2
    have hvalid : (c.toNat + 32).isValidChar := Or.inl (by omega)
    have ht : (Char.ofNat (c.toNat + 32)).toNat = c.toNat + 32 := charOfNat_toNat hvalid
    simp only [pyLowerChar, hcase, if_true]
    exact not_upper_of_ascii_lower (by omega) (by omega)
  · have hcase : pyIsUpperChar c = false := not_upper_of_ascii_lower h1 h2
    simp [pyLowerChar, hcase]

theorem dropLeadingSpace_eq_self {l : List Char}
    (h : ∀ c ∈ l, isSpaceChar c = false) : dropLeadingSpace l = l := by
  cases l with
  | nil => rfl
  | cons c cs =>
    rw [dropLeadingSpace, h c (List.mem_cons_self c cs)]
    simp

theorem pyStrip_eq_self {s : String}
    (h : ∀ c ∈ s.data, isSpaceChar c = false) : pyStrip s = s := by
  have h1 : dropLeadingSpace s.data = s.data := dropLeadingSpace_eq_self h
  have h2 : ∀ c ∈ s.data.reverse, isSpaceChar c = false := by
    intro c hc
    exact h c (List.mem_reverse.mp hc)
  rw [pyStrip, pyStripList, h1, dropLeadingSpace_eq_self h2, List.reverse_reverse]

theorem parenScanAux_no_lparen {cs : List Char} (n : Nat)
    (h : ∀ c ∈ cs, (c == '(') = false) : parenScanAux n cs none = (cs, []) := by
  induction cs with
  | nil => rfl
  | cons c cs ih =>
    rw [parenScanAux, h c (List.mem_cons_self c cs)]
    simp only [Bool.false_eq_true, if_false]
    rw [ih (fun d hd => h d (List.mem_cons_of_mem c hd))]

theorem pySplitAux_no_space {cs : List Char}
    (h : ∀ c ∈ cs, isSpaceChar c = false) :
    ∀ acc : List Char, acc ≠ [] ∨ cs ≠ [] →
      pySplitAux cs acc = [acc.reverse ++ cs] := by
  induction cs with
  | nil =>
    intro acc hne
    rcases hne with hne | hne
    · rw [pySplitAux]
      simp [List.isEmpty_iff, hne]
    · exact absurd rfl hne
  | cons c cs ih =>
    intro acc _
    rw [pySplitAux, h c (List.mem_cons_self c cs)]
    simp only [Bool.false_eq_true, if_false]
    rw [ih (fun d hd => h d (List.mem_cons_of_mem c hd)) (c :: acc) (Or.inl (by simp))]
    simp

theorem pySplit_single {w : String} (hne : w.data ≠ [])
    (h : ∀ c ∈ w.data, isSpaceChar c = false) : pySplit w = [w] := by
  rw [pySplit, pySplitAux_no_space h [] (Or.inr hne)]
  simp

theorem pyTitleList_true_map_lower {cs : List Char}
    (h : ∀ c ∈ cs, pyIsAsciiAlpha c = true) :
    pyTitleList true cs = cs.map pyLowerChar := by
  induction cs with
  | nil => rfl
  | cons c cs ih =>
    rw [pyTitleList, pyIsCased_of_alpha (h c (List.mem_cons_self c cs)),
      ih (fun d hd => h d (List.mem_cons_of_mem c hd))]
    simp

theorem pyTitle_eq_capitalize {w : String} (hne : w.data ≠ [])
    (h : ∀ c ∈ w.data, pyIsAsciiAlpha c = true) : pyTitle w = pyCapitalize w := by
  rw [pyTitle, pyCapitalize]
  cases hd : w.data with
  | nil => exact absurd hd hne
  | cons c cs =>
    rw [pyTitleList]
    have hc : pyIsCased c = true :=
      pyIsCased_of_alpha (h c (by rw [hd]; exact List.mem_cons_self c cs))
    rw [hc, pyTitleList_true_map_lower
      (fun d hd2 => h d (by rw [hd]; exact List.mem_cons_of_mem c hd2))]
    simp

theorem pyJoin_cons_ne_empty (w : String) (ws : List String)
    (hne : w.data ≠ []) : pyJoin " " (w :: ws) ≠ "" := by
  cases ws with
  | nil =>
    rw [pyJoin]
    exact (string_ne_empty_iff w).mpr hne
  | cons v vs =>
    rw [show pyJoin " " (w :: v :: vs) = w ++ " " ++ pyJoin " " (v :: vs) from rfl,
      string_ne_empty_iff, String.data_append, String.data_append]
    simp [hne]

theorem nameTokens_mem_ne_empty {r w : String} (h : w ∈ nameTokens r) :
    w.data ≠ [] := by
  rw [nameTokens] at h
  have := (List.mem_filter.mp h).2
  rw [← string_ne_empty_iff]
  simpa using this

theorem map_row_eq_of_normRow {row1 row2 : List (String × String)}
    (h : normRow row1 = normRow row2) : map_row row1 = map_row row2 := by
  simp only [map_row, mapCore, h]

/-! ## Claim theorems -/

/-- C1 (counterexample): a row with a name column "Nombre" =
"ana maria jimenez solis" and a phone column "Teléfono" = "22221234"
yields `work_phone = "2222-1234"` from `map_row`, not the
"+(506) 2222-1234" the claim asserts for a batch policy with
`default_country_code = "+(506)"`: `map_row` never passes any policy to
`normalize_phone`. -/
theorem c1_policy_counterexample :
    mget (map_row [("Nombre", "ana maria jimenez solis"), ("Teléfono", "22221234")])
        "work_phone" = some "2222-1234" ∧
      (some "2222-1234" : Option String) ≠ some "+(506) 2222-1234" := by
  constructor
  · decide
  · decide

/-- C1 (amended): for every row whose only columns are a label whose
lowercased trimmed form is "nombre" with value "ana maria jimenez solis"
and a label whose lowercased trimmed form is "teléfono" with value
"22221234", `map_row` splits the name per the Tier rules
(first "Ana Maria", last "Jimenez Solis") and produces
`work_phone = "2222-1234"`: the phone is normalized with no country code
and no work prefix because `map_row` passes neither. -/
theorem c1_map_row_end_to_end (l1 l2 : String)
    (h1 : pyStrip (pyLowerStr l1) = "nombre")
    (h2 : pyStrip (pyLowerStr l2) = "teléfono") :
    mget (map_row [(l1, "ana maria jimenez solis"), (l2, "22221234")])
        "first_name" = some "Ana Maria" ∧
      mget (map_row [(l1, "ana maria jimenez solis"), (l2, "22221234")])
        "last_name" = some "Jimenez Solis" ∧
      mget (map_row [(l1, "ana maria jimenez solis"), (l2, "22221234")])
        "full_name" = some "Ana Maria Jimenez Solis" ∧
      mget (map_row [(l1, "ana maria jimenez solis"), (l2, "22221234")])
        "work_phone" = some "2222-1234" := by
  have h : normRow [(l1, "ana maria jimenez solis"), (l2, "22221234")] =
      normRow [("nombre", "ana maria jimenez solis"), ("teléfono", "22221234")] := by
    simp only [normRow, List.map]
    rw [h1, h2]
    decide
  rw [map_row_eq_of_normRow h]
  decide

/-- C1 (witness): the amended end-to-end theorem applied at the literal
labels "Nombre" and "Teléfono". -/
theorem c1_map_row_end_to_end_witness :
    mget (map_row [("Nombre", "ana maria jimenez solis"), ("Teléfono", "22221234")])
        "first_name" = some "Ana Maria" ∧
      mget (map_row [("Nombre", "ana maria jimenez solis"), ("Teléfono", "22221234")])
        "last_name" = some "Jimenez Solis" ∧
      mget (map_row [("Nombre", "ana maria jimenez solis"), ("Teléfono", "22221234")])
        "full_name" = some "Ana Maria Jimenez Solis" ∧
      mget (map_row [("Nombre", "ana maria jimenez solis"), ("Teléfono", "22221234")])
        "work_phone" = some "2222-1234" :=
  c1_map_row_end_to_end "Nombre" "Teléfono" (by decide) (by decide)

/-- C2 (code bug): `format_field` on a smart-title field does NOT return
the parenthesized span unchanged: `smart_title_case` lowercases the
placeholder (Python `capitalize()` lowercases everything after the first
character), so the restoration `replace` never matches and the literal
placeholder leaks into the output: the code returns
"Gerente __paren_0__" where spec and comments promise "Gerente (CEO)". -/
theorem c2_smart_paren_bug :
    format_field "business_title" "Gerente (CEO)" = "Gerente __paren_0__" ∧
      ("Gerente __paren_0__" : String) ≠ "Gerente (CEO)" := by
  constructor
  · decide
  · decide

/-- C3 (counterexample): alias matching is not accent-insensitive: the
column label "movil" differs from the listed alias "móvil" only by the
accent (their accent-stripped lowercase forms agree), yet "móvil" maps
the cell into `mobile_phone` while "movil" maps nothing. -/
theorem c3_accent_counterexample :
    mget (map_row [("móvil", "88887777")]) "mobile_phone" = some "8888-7777" ∧
      mget (map_row [("movil", "88887777")]) "mobile_phone" = none ∧
      String.mk ((pyLowerStr "móvil").data.map stripAccentChar) =
        String.mk ((pyLowerStr "movil").data.map stripAccentChar) := by
  refine ⟨by decide, by decide, by decide⟩

/-- C3 (amended): alias matching is case-insensitive (and trims labels):
any two rows with identical normalized views — labels lowercased then
trimmed, values unchanged — map identically, so a column label differing
from an alias only in letter case maps exactly as the alias's spelling;
accent-insensitivity however does not hold (it is approximated only by
listing accented spellings as separate aliases). -/
theorem c3_case_insensitive_mapping (row1 row2 : List (String × String))
    (h : normRow row1 = normRow row2) : map_row row1 = map_row row2 :=
  map_row_eq_of_normRow h

/-- C3 (witness): the case-insensitivity theorem applied to the labels
"PHONE" and "phone". -/
theorem c3_case_insensitive_mapping_witness :
    normRow [("PHONE", "22221234")] = normRow [("phone", "22221234")] ∧
      map_row [("PHONE", "22221234")] = map_row [("phone", "22221234")] :=
  ⟨by decide, c3_case_insensitive_mapping [("PHONE", "22221234")]
    [("phone", "22221234")] (by decide)⟩

/-- C6 (counterexample): a first-matching alias whose cell holds the
literal "0" does not make the canonical field absent: the loop continues
and the later alias "telefono" supplies `work_phone`. -/
theorem c6_zero_continue_counterexample :
    mget (map_row [("phone", "0"), ("telefono", "22221234")]) "work_phone" =
        some "2222-1234" ∧
      (some "2222-1234" : Option String) ≠ none := by
  refine ⟨by decide, by decide⟩

/-- C6 (amended): the per-field alias loop realizes first-USABLE-match
semantics: the field takes the (formatted, unless a name field) value of
the first alias in declared order whose matched cell is usable (non-NaN,
and not "" or "0" after trimming and stripping a trailing ".0"); an
unusable matched cell falls through to later aliases instead of making
the field absent. -/
theorem c6_first_usable_alias (field : String) (nrow : List (String × String))
    (aliases : List String) :
    mapFieldLoop field nrow aliases =
      (firstUsableAlias nrow aliases).map
        (fun v => if nameFields.contains field then v else format_field field v) := by
  induction aliases with
  | nil => rfl
  | cons a rest ih =>
    rw [mapFieldLoop, firstUsableAlias, List.findSome?_cons]
    cases hl : rowLookup nrow (pyLowerStr a) with
    | none =>
      simp only [Option.none_bind]
      simpa [firstUsableAlias] using ih
    | some val =>
      cases hu : usableValue val with
      | none =>
        simp only [Option.some_bind, hu]
        simpa [firstUsableAlias] using ih
      | some v => simp [Option.some_bind, hu]

/-- C8 (confirmed): for a work-role phone whose trimmed raw form holds
exactly 4 digits, with work prefix "2222" configured and no country
code, `normalize_phone` prepends the prefix and then applies the 8-digit
local formatting rule, yielding "2222-" followed by the 4 digits. -/
theorem c8_work_prefix_then_format (raw : String)
    (h1 : pyStrip raw ≠ "")
    (h2 : nanLikes.contains (pyLowerStr (pyStrip raw)) = false)
    (h3 : pyStartsWithPlus (pyStrip raw) = false)
    (h4 : (phoneDigits (pyStrip raw)).length = 4) :
    normalize_phone raw "work" (some "2222") none =
      String.mk ("2222-".data ++ phoneDigits (pyStrip raw)) := by
  have hda : phoneDigitsAfter (pyStrip raw) "work" (some "2222") =
      "2222".data ++ phoneDigits (pyStrip raw) := by
    simp [phoneDigitsAfter, h4, truthyOpt]
  have hlen3 : ¬ (phoneDigits (pyStrip raw)).length ≤ 3 := by omega
  have hlen8 : ¬ (phoneDigitsAfter (pyStrip raw) "work" (some "2222")).length ≠ 8 := by
    rw [hda]
    simp [h4]
  rw [normalize_phone]
  rw [if_neg h1]
  simp only [h2, Bool.false_eq_true, if_false, h3]
  rw [if_neg hlen3, if_neg hlen8]
  simp only [truthyOpt, show ((none : Option String) == none) = true from rfl]
  rw [hda]
  have ht : ("2222".data ++ phoneDigits (pyStrip raw)).take 4 = "2222".data :=
    List.take_left' (by decide)
  have hd : ("2222".data ++ phoneDigits (pyStrip raw)).drop 4 =
      phoneDigits (pyStrip raw) :=
    List.drop_left' (by decide)
  rw [ht, hd]
  apply congrArg String.mk ∘ id
  have hpre : ("2222".data ++ ['-'] : List Char) = "2222-".data := by decide
  rw [hpre]

/-- C8 (witness): the work-prefix rule at the concrete input "1234". -/
theorem c8_work_prefix_then_format_witness :
    normalize_phone "1234" "work" (some "2222") none = "2222-1234" :=
  (c8_work_prefix_then_format "1234" (by decide) (by decide) (by decide)
    (by decide)).trans (by decide)

/-- C9 (counterexample): an unrecognized phone shape is not returned
fully unchanged: the input " 12345 " (5 digits, surrounding blanks)
comes back trimmed as "12345", which differs from the original. -/
theorem c9_passthrough_counterexample :
    normalize_phone " 12345 " "other" none none = "12345" ∧
      ("12345" : String) ≠ " 12345 " := by
  refine ⟨by decide, by decide⟩

/-- C9 (amended): `normalize_phone` is a total function in this embedding
and every input not matching a recognized shape — not "+"-prefixed, more
than 3 digits, digit count after optional prefixing different from 8 —
is passed through as the trimmed raw string (trimming is the only
modification; an already-trimmed input is returned unchanged). -/
theorem c9_unrecognized_passthrough (raw phoneType : String)
    (wpPref countryCode : Option String)
    (h1 : pyStrip raw ≠ "")
    (h2 : nanLikes.contains (pyLowerStr (pyStrip raw)) = false)
    (h3 : pyStartsWithPlus (pyStrip raw) = false)
    (h4 : 3 < (phoneDigits (pyStrip raw)).length)
    (h5 : (phoneDigitsAfter (pyStrip raw) phoneType wpPref).length ≠ 8) :
    normalize_phone raw phoneType wpPref countryCode = pyStrip raw := by
  have hlen3 : ¬ (phoneDigits (pyStrip raw)).length ≤ 3 := by omega
  rw [normalize_phone]
  rw [if_neg h1]
  simp only [h2, Bool.false_eq_true, if_false, h3]
  rw [if_neg hlen3, if_pos h5]

/-- C9 (witness): the pass-through theorem at the already-trimmed
unrecognized input "12345". -/
theorem c9_unrecognized_passthrough_witness :
    normalize_phone "12345" "other" none none = pyStrip "12345" :=
  c9_unrecognized_passthrough "12345" "other" none none (by decide) (by decide)
    (by decide) (by decide) (by decide)

theorem pyJoin_ne_empty_of (l : List String) (hl : l ≠ [])
    (hmem : ∀ w ∈ l, w.data ≠ []) : pyJoin " " l ≠ "" := by
  cases l with
  | nil => exact absurd rfl hl
  | cons w ws => exact pyJoin_cons_ne_empty w ws (hmem w (List.mem_cons_self w ws))

theorem parseNameCore_spanish (rawName : String) (parts : List String)
    (hsp : isSpanishFormat rawName parts = true) (hlen : 3 ≤ parts.length) :
    parseNameCore rawName parts =
      (pyJoin " " (parts.drop 2), pyJoin " " (parts.take 2), "", "") := by
  rw [parseNameCore, if_pos hsp]
  have h2 : ¬ parts.length = 2 := by omega
  rw [if_neg h2]
  by_cases h3 : parts.length = 3
  · rw [if_pos h3]
    obtain ⟨a, b, c, habc⟩ := List.length_eq_three.mp h3
    subst habc
    rw [ite_self]
    simp [pyJoin]
  · have h4 : 4 ≤ parts.length := by omega
    rw [if_neg h3, if_pos h4, ite_self]

theorem parse_name_spanish_split (raw : String)
    (hsp : isSpanishFormat (pyStrip raw) (nameTokens (pyStrip raw)) = true)
    (hlen : 3 ≤ (nameTokens (pyStrip raw)).length) :
    (parse_name raw).first_name =
        pyTitle (pyJoin " " ((nameTokens (pyStrip raw)).drop 2)) ∧
      (parse_name raw).last_name =
        pyTitle (pyJoin " " ((nameTokens (pyStrip raw)).take 2)) := by
  have hne : pyStrip raw ≠ "" := by
    intro he
    rw [he] at hlen
    have hz : nameTokens "" = [] := by decide
    rw [hz] at hlen
    simp at hlen
  have h0 : ¬ (nameTokens (pyStrip raw)).length = 0 := by omega
  have hcore := parseNameCore_spanish (pyStrip raw) (nameTokens (pyStrip raw)) hsp hlen
  have htk : (nameTokens (pyStrip raw)).take 2 ≠ [] := by
    intro he
    have hl := List.length_take 2 (nameTokens (pyStrip raw))
    rw [he] at hl
    simp at hl
    omega
  have hdr : (nameTokens (pyStrip raw)).drop 2 ≠ [] := by
    intro he
    have hl := List.length_drop 2 (nameTokens (pyStrip raw))
    rw [he] at hl
    simp at hl
    omega
  have hJt : pyJoin " " ((nameTokens (pyStrip raw)).take 2) ≠ "" :=
    pyJoin_ne_empty_of _ htk (fun w hw =>
      nameTokens_mem_ne_empty (List.take_subset 2 _ hw))
  have hJd : pyJoin " " ((nameTokens (pyStrip raw)).drop 2) ≠ "" :=
    pyJoin_ne_empty_of _ hdr (fun w hw =>
      nameTokens_mem_ne_empty (List.drop_subset 2 _ hw))
  rw [parse_name, if_neg hne]
  simp only [h0, if_false]
  rw [hcore]
  simp only [ne_eq]
  rw [if_pos hJd, if_pos hJt]
  exact ⟨rfl, rfl⟩

/-- C5 (counterexample): the 4-token all-caps name
"GOMEZ RODRIGUEZ SOLIS PEREZ" — first token not a known given name,
tokens 2 and 3 not both given names — is NOT treated as Spanish order:
the exactly-4-token branch shadows the all-caps heuristic, and the
normal-order split yields last name "Rodriguez Solis Perez" instead of
the Spanish-order "Gomez Rodriguez". -/
theorem c5_allcaps_counterexample :
    pyIsUpperStr "GOMEZ RODRIGUEZ SOLIS PEREZ" = true ∧
      (nameTokens "GOMEZ RODRIGUEZ SOLIS PEREZ").length = 4 ∧
      spanishGivenNames.contains
        (normWord ((nameTokens "GOMEZ RODRIGUEZ SOLIS PEREZ").getD 0 "")) = false ∧
      (spanishGivenNames.contains
          (normWord ((nameTokens "GOMEZ RODRIGUEZ SOLIS PEREZ").getD 2 "")) &&
        spanishGivenNames.contains
          (normWord ((nameTokens "GOMEZ RODRIGUEZ SOLIS PEREZ").getD 3 ""))) = false ∧
      isSpanishFormat "GOMEZ RODRIGUEZ SOLIS PEREZ"
        (nameTokens "GOMEZ RODRIGUEZ SOLIS PEREZ") = false ∧
      (parse_name "GOMEZ RODRIGUEZ SOLIS PEREZ").last_name =
        "Rodriguez Solis Perez" ∧
      ("Rodriguez Solis Perez" : String) ≠ "Gomez Rodriguez" := by
  refine ⟨by decide, by decide, by decide, by decide, by decide, by decide, by decide⟩

/-- C5 (amended): for an all-caps name whose first token is not a known
given name and which has at least 3 tokens, the Spanish-order treatment
applies exactly when the token count differs from 4; for exactly 4
tokens the given-name test on tokens 2 and 3 alone decides (the
`elif len == 4` branch shadows the all-caps heuristic). When it applies,
`parse_name` splits surname-first: last = first two tokens, first = the
rest, title-cased. -/
theorem c5_allcaps_spanish_order (raw : String)
    (h0 : pyStrip raw = raw)
    (hcaps : pyIsUpperStr raw = true)
    (hlen : 3 ≤ (nameTokens raw).length)
    (hfirst : spanishGivenNames.contains
      (normWord ((nameTokens raw).getD 0 "")) = false) :
    (isSpanishFormat raw (nameTokens raw) =
        if (nameTokens raw).length = 4 then
          spanishGivenNames.contains (normWord ((nameTokens raw).getD 2 "")) &&
            spanishGivenNames.contains (normWord ((nameTokens raw).getD 3 ""))
        else true) ∧
      ((nameTokens raw).length ≠ 4 →
        (parse_name raw).last_name =
            pyTitle (pyJoin " " ((nameTokens raw).take 2)) ∧
          (parse_name raw).first_name =
            pyTitle (pyJoin " " ((nameTokens raw).drop 2))) := by
  have h2le : 2 ≤ (nameTokens raw).length := by omega
  have hflag : isSpanishFormat raw (nameTokens raw) =
      if (nameTokens raw).length = 4 then
        spanishGivenNames.contains (normWord ((nameTokens raw).getD 2 "")) &&
          spanishGivenNames.contains (normWord ((nameTokens raw).getD 3 ""))
      else true := by
    rw [isSpanishFormat, if_pos h2le]
    simp only [hfirst, Bool.false_eq_true, if_false]
    by_cases h4 : (nameTokens raw).length = 4
    · rw [if_pos h4, if_pos h4]
    · rw [if_neg h4, if_neg h4, if_pos]
      simp [hcaps, hlen]
  refine ⟨hflag, fun h4 => ?_⟩
  have hsp : isSpanishFormat raw (nameTokens raw) = true := by
    rw [hflag, if_neg h4]
  have hsp2 : isSpanishFormat (pyStrip raw) (nameTokens (pyStrip raw)) = true := by
    rw [h0]
    exact hsp
  have hlen2 : 3 ≤ (nameTokens (pyStrip raw)).length := by
    rw [h0]
    exact hlen
  have hres := parse_name_spanish_split raw hsp2 hlen2
  rw [h0] at hres
  exact ⟨hres.2, hres.1⟩

/-- C5 (witness): the amended theorem at the 3-token all-caps name
"GOMEZ RODRIGUEZ SOLIS", whose token count is not 4, so Spanish order
applies: last = "Gomez Rodriguez", first = "Solis". -/
theorem c5_allcaps_spanish_order_witness :
    (isSpanishFormat "GOMEZ RODRIGUEZ SOLIS" (nameTokens "GOMEZ RODRIGUEZ SOLIS") =
        if (nameTokens "GOMEZ RODRIGUEZ SOLIS").length = 4 then
          spanishGivenNames.contains
            (normWord ((nameTokens "GOMEZ RODRIGUEZ SOLIS").getD 2 "")) &&
            spanishGivenNames.contains
              (normWord ((nameTokens "GOMEZ RODRIGUEZ SOLIS").getD 3 ""))
        else true) ∧
      ((nameTokens "GOMEZ RODRIGUEZ SOLIS").length ≠ 4 →
        (parse_name "GOMEZ RODRIGUEZ SOLIS").last_name =
            pyTitle (pyJoin " " ((nameTokens "GOMEZ RODRIGUEZ SOLIS").take 2)) ∧
          (parse_name "GOMEZ RODRIGUEZ SOLIS").first_name =
            pyTitle (pyJoin " " ((nameTokens "GOMEZ RODRIGUEZ SOLIS").drop 2))) :=
  c5_allcaps_spanish_order "GOMEZ RODRIGUEZ SOLIS" (by decide) (by decide)
    (by decide) (by decide)

/-- C7 (confirmed): for every Spanish-order name of 4 or more tokens,
`parse_name` returns surname = the first 2 tokens and given = all
remaining tokens (title-cased), independently of the trailing
given-name/linking-word count: both branches of the `count >= 2` test
produce this same split. -/
theorem c7_spanish_split_count_independent (raw : String)
    (hsp : isSpanishFormat (pyStrip raw) (nameTokens (pyStrip raw)) = true)
    (hlen : 4 ≤ (nameTokens (pyStrip raw)).length) :
    (parse_name raw).last_name =
        pyTitle (pyJoin " " ((nameTokens (pyStrip raw)).take 2)) ∧
      (parse_name raw).first_name =
        pyTitle (pyJoin " " ((nameTokens (pyStrip raw)).drop 2)) := by
  have h := parse_name_spanish_split raw hsp (by omega)
  exact ⟨h.2, h.1⟩

/-- C7 (witness): the split theorem at "RODRIGUEZ GOMEZ JOSE MARIA"
(4 tokens, Spanish order via the given-name test on tokens 2 and 3). -/
theorem c7_spanish_split_count_independent_witness :
    (parse_name "RODRIGUEZ GOMEZ JOSE MARIA").last_name =
        pyTitle (pyJoin " "
          ((nameTokens (pyStrip "RODRIGUEZ GOMEZ JOSE MARIA")).take 2)) ∧
      (parse_name "RODRIGUEZ GOMEZ JOSE MARIA").first_name =
        pyTitle (pyJoin " "
          ((nameTokens (pyStrip "RODRIGUEZ GOMEZ JOSE MARIA")).drop 2)) :=
  c7_spanish_split_count_independent "RODRIGUEZ GOMEZ JOSE MARIA" (by decide)
    (by decide)

theorem smart_title_case_single {w : String} (hne : w.data ≠ [])
    (hns : ∀ c ∈ w.data, isSpaceChar c = false) :
    smart_title_case w = pyCapitalize w := by
  rw [smart_title_case, pySplit_single hne hns]
  simp [List.enum, List.enumFrom, pyJoin]

theorem parenExtract_no_lparen {w : String}
    (h : ∀ c ∈ w.data, (c == '(') = false) : parenExtract w = (w, []) := by
  rw [parenExtract, parenScanAux_no_lparen 0 h]

/-- C10 (confirmed): in both casing modes a capitalized all-letter word
has every character after the first lowercased (Python
`capitalize()`/`title()` semantics): on a single alphabetic word both the
plain-title path (e.g. field `personal_bio`) and the smart-title path
(e.g. field `business_title`) of `format_field` produce exactly
`pyCapitalize`, whose tail contains no uppercase character — so interior
capitals such as the "BM" of "IBM" are not preserved. -/
theorem c10_interior_uppercase_lost (w : String) (hne : w ≠ "")
    (halpha : ∀ c ∈ w.data, pyIsAsciiAlpha c = true) :
    format_field "personal_bio" w = pyCapitalize w ∧
      format_field "business_title" w = pyCapitalize w ∧
      (∀ c ∈ (pyCapitalize w).data.tail, pyIsUpperChar c = false) := by
  have hdatane : w.data ≠ [] := (string_ne_empty_iff w).mp hne
  have hnospace : ∀ c ∈ w.data, isSpaceChar c = false :=
    fun c hc => not_space_of_alpha (halpha c hc)
  have hnoparen : ∀ c ∈ w.data, (c == '(') = false :=
    fun c hc => not_lparen_of_alpha (halpha c hc)
  have hstrip : pyStrip w = w := pyStrip_eq_self hnospace
  have hpe : parenExtract w = (w, []) := parenExtract_no_lparen hnoparen
  refine ⟨?_, ?_, ?_⟩
  · rw [format_field, hstrip, if_neg hne, if_neg (by decide : ¬ ("personal_bio" : String) = "business_name")]
    rw [if_neg (by decide : ¬ emailLikeFields.contains "personal_bio" = true)]
    rw [if_neg (by decide : ¬ smartTitleFields.contains "personal_bio" = true)]
    rw [hpe]
    simp only [List.foldl_nil]
    exact pyTitle_eq_capitalize hdatane halpha
  · rw [format_field, hstrip, if_neg hne, if_neg (by decide : ¬ ("business_title" : String) = "business_name")]
    rw [if_neg (by decide : ¬ emailLikeFields.contains "business_title" = true)]
    rw [if_pos (by decide : smartTitleFields.contains "business_title" = true)]
    rw [hpe]
    simp only [List.foldl_nil]
    exact smart_title_case_single hdatane hnospace
  · intro c hc
    cases hd : w.data with
    | nil => exact absurd hd hdatane
    | cons a cs =>
      have hcap : pyCapitalize w = String.mk (pyUpperChar a :: cs.map pyLowerChar) := by
        rw [pyCapitalize, hd]
      rw [hcap] at hc
      simp only [List.tail_cons] at hc
      obtain ⟨d, hd2, hdc⟩ := List.mem_map.mp hc
      subst hdc
      exact pyLowerChar_not_upper_of_alpha
        (halpha d (by rw [hd]; exact List.mem_cons_of_mem a hd2))

/-- C10 (witness): the casing theorem at the all-caps acronym "IBM",
which both modes turn into "Ibm". -/
theorem c10_interior_uppercase_lost_witness :
    format_field "personal_bio" "IBM" = pyCapitalize "IBM" ∧
      format_field "business_title" "IBM" = pyCapitalize "IBM" ∧
      (∀ c ∈ (pyCapitalize "IBM").data.tail, pyIsUpperChar c = false) :=
  c10_interior_uppercase_lost "IBM" (by decide) (by decide)

theorem processRows_append_ok (total : Nat) :
    ∀ (pre rest : List BatchRow) (s : BatchState), (∀ r ∈ pre, rowOk r) →
      processRows total (pre ++ rest) s =
        processRows total rest (advanceRows pre s) := by
  intro pre
  induction pre with
  | nil => intro rest s _; rfl
  | cons r pre2 ih =>
    intro rest s hpre
    obtain ⟨hmr, hpr, hcr⟩ := hpre r (List.mem_cons_self r pre2)
    rw [List.cons_append, processRows]
    simp only [hmr, hpr, hcr, Bool.not_true, Bool.false_eq_true, if_false]
    rw [advanceRows]
    exact ih rest (stepOkRow r s) (fun x hx => hpre x (List.mem_cons_of_mem r hx))

theorem advanceRows_fields :
    ∀ (pre : List BatchRow) (s : BatchState),
      (advanceRows pre s).status = s.status ∧
      (advanceRows pre s).errorMessage = s.errorMessage ∧
      (advanceRows pre s).pgAborted = s.pgAborted ∧
      (advanceRows pre s).escaped = s.escaped ∧
      (advanceRows pre s).casRows = s.casRows ++ pre.map BatchRow.payload ∧
      (advanceRows pre s).processed = s.processed + pre.length ∧
      (advanceRows pre s).pgCommitted ++ (advanceRows pre s).pgPending =
        s.pgCommitted ++ s.pgPending ++ pre.map BatchRow.payload := by
  intro pre
  induction pre with
  | nil => intro s; simp [advanceRows]
  | cons r pre2 ih =>
    intro s
    rw [advanceRows]
    obtain ⟨i1, i2, i3, i4, i5, i6, i7⟩ := ih (stepOkRow r s)
    refine ⟨?_, ?_, ?_, ?_, ?_, ?_, ?_⟩
    · rw [i1]
      by_cases hchk : (s.processed + 1) % 100 = 0 <;>
        simp [stepOkRow, pgCommitAll, hchk]
    · rw [i2]
      by_cases hchk : (s.processed + 1) % 100 = 0 <;>
        simp [stepOkRow, pgCommitAll, hchk]
    · rw [i3]
      by_cases hchk : (s.processed + 1) % 100 = 0 <;>
        simp [stepOkRow, pgCommitAll, hchk]
    · rw [i4]
      by_cases hchk : (s.processed + 1) % 100 = 0 <;>
        simp [stepOkRow, pgCommitAll, hchk]
    · rw [i5]
      by_cases hchk : (s.processed + 1) % 100 = 0 <;>
        simp [stepOkRow, pgCommitAll, hchk, List.append_assoc]
    · rw [i6]
      by_cases hchk : (s.processed + 1) % 100 = 0 <;>
        simp [stepOkRow, pgCommitAll, hchk] <;> omega
    · rw [i7]
      by_cases hchk : (s.processed + 1) % 100 = 0 <;>
        simp [stepOkRow, pgCommitAll, hchk, List.append_assoc]

theorem advanceRows_append :
    ∀ (pre : List BatchRow) (r : BatchRow) (s : BatchState),
      advanceRows (pre ++ [r]) s = stepOkRow r (advanceRows pre s) := by
  intro pre
  induction pre with
  | nil => intro r s; rfl
  | cons x pre2 ih =>
    intro r s
    rw [List.cons_append, advanceRows, advanceRows, ih]

theorem advanceRows_init_commit :
    ∀ pre : List BatchRow,
      (advanceRows pre initialBatchState).pgCommitted =
        (pre.map BatchRow.payload).take (pre.length - pre.length % 100) ∧
      (advanceRows pre initialBatchState).pgPending =
        (pre.map BatchRow.payload).drop (pre.length - pre.length % 100) := by
  intro pre
  induction pre using List.reverseRecOn with
  | nil => exact ⟨rfl, rfl⟩
  | append_singleton pre2 r ih =>
    obtain ⟨ihc, ihp⟩ := ih
    have hproc : (advanceRows pre2 initialBatchState).processed = pre2.length := by
      have h := (advanceRows_fields pre2 initialBatchState).2.2.2.2.2.1
      simpa [initialBatchState] using h
    rw [advanceRows_append]
    by_cases hchk : (pre2.length + 1) % 100 = 0
    · have hs : stepOkRow r (advanceRows pre2 initialBatchState) =
          pgCommitAll { advanceRows pre2 initialBatchState with
            pgPending := (advanceRows pre2 initialBatchState).pgPending ++ [r.payload],
            casRows := (advanceRows pre2 initialBatchState).casRows ++ [r.payload],
            processed := (advanceRows pre2 initialBatchState).processed + 1 } := by
        rw [stepOkRow]
        rw [if_pos]
        rw [hproc]
        exact hchk
      have hlen : (pre2 ++ [r]).length - (pre2 ++ [r]).length % 100 =
          ((pre2 ++ [r]).map BatchRow.payload).length := by
        simp only [List.length_append, List.length_singleton, List.length_map]
        omega
      rw [hs]
      constructor
      · simp only [pgCommitAll, ihc, ihp]
        rw [← List.append_assoc, List.take_append_drop, hlen, List.take_length]
        simp
      · simp only [pgCommitAll]
        rw [hlen, List.drop_length]
    · have hs : stepOkRow r (advanceRows pre2 initialBatchState) =
          { advanceRows pre2 initialBatchState with
            pgPending := (advanceRows pre2 initialBatchState).pgPending ++ [r.payload],
            casRows := (advanceRows pre2 initialBatchState).casRows ++ [r.payload],
            processed := (advanceRows pre2 initialBatchState).processed + 1 } := by
        rw [stepOkRow]
        rw [if_neg]
        rw [hproc]
        exact hchk
      have hle : pre2.length - pre2.length % 100 ≤ (pre2.map BatchRow.payload).length := by
        simp only [List.length_map]
        omega
      have heq : pre2.length + 1 - (pre2.length + 1) % 100 =
          pre2.length - pre2.length % 100 := by omega
      rw [hs]
      constructor
      · simp only [ihc, List.length_append, List.length_singleton, heq,
          List.map_append]
        rw [List.take_append_of_le_length hle]
      · simp only [ihp, List.length_append, List.length_singleton, heq,
          List.map_append]
        rw [List.drop_append_of_le_length hle]
        simp

theorem setError_healthy (s : BatchState) (msg : String)
    (h : s.pgAborted = false) :
    setError s msg =
      { pgCommitAll s with status := "ERROR", errorMessage := some msg } := by
  rw [setError, if_neg]
  simp [h]

theorem setError_aborted (s : BatchState) (msg : String)
    (h : s.pgAborted = true) :
    setError s msg = { s with pgPending := [], escaped := true } := by
  rw [setError, if_pos h]

theorem processRows_fail_step (total : Nat) (k : BatchRow)
    (post : List BatchRow) (s : BatchState) (hk : ¬ rowOk k) :
    processRows total (k :: post) s =
      if k.mapOk = false then setError s k.errMsg
      else if k.pgOk = false then setError { s with pgAborted := true } k.errMsg
      else setError { s with pgPending := s.pgPending ++ [k.payload] } k.errMsg := by
  rw [processRows]
  cases hm : k.mapOk <;> cases hp : k.pgOk <;> cases hc : k.casOk
  case true.true.true => exact absurd ⟨hm, hp, hc⟩ hk
  all_goals simp

/-- C4 (counterexample): a batch of two rows whose second row fails its
PostgreSQL (narrow-store) insert does NOT transition to ERROR and does
NOT keep row 1 committed in both stores: the aborted transaction makes
the ERROR status update raise, its handler rolls back the pending narrow
insert of row 1 and re-raises, so the batch stays PARSING, the narrow
store ends empty while the wide store still holds row 1, and the
exception escapes the orchestrator. -/
theorem c4_narrow_abort_counterexample :
    (parse_and_store [⟨1, true, true, true, "r1"⟩,
        ⟨2, true, false, true, "pg insert failed"⟩]).status = "PARSING" ∧
      ("PARSING" : String) ≠ "ERROR" ∧
      (parse_and_store [⟨1, true, true, true, "r1"⟩,
        ⟨2, true, false, true, "pg insert failed"⟩]).errorMessage = none ∧
      (parse_and_store [⟨1, true, true, true, "r1"⟩,
        ⟨2, true, false, true, "pg insert failed"⟩]).pgCommitted = [] ∧
      ([] : List Nat) ≠ [1] ∧
      (parse_and_store [⟨1, true, true, true, "r1"⟩,
        ⟨2, true, false, true, "pg insert failed"⟩]).casRows = [1] ∧
      (parse_and_store [⟨1, true, true, true, "r1"⟩,
        ⟨2, true, false, true, "pg insert failed"⟩]).escaped = true := by
  refine ⟨by decide, by decide, by decide, by decide, by decide, by decide, by decide⟩

/-- C4 (amended): when every row before row K succeeds and row K fails,
the orchestrator neither retries nor skips it: no later row is processed
(exactly K-1 rows are counted, the wide store holds exactly rows 1..K-1)
and the batch never reaches PARSED. If the failure is the mapping or the
wide-store (Cassandra) insert, the transaction is healthy, so the batch
transitions to ERROR with the triggering message, and rows 1..K-1 stay
committed in both stores (plus row K's narrow insert when only the
Cassandra insert failed). If the failure is the narrow-store
(PostgreSQL) insert, the aborted transaction makes the ERROR update
itself raise: its handler rolls back and re-raises, the batch stays
PARSING with no error message recorded, the exception escapes the
orchestrator, and the narrow store keeps only the rows committed at the
last 100-row checkpoint (the first K-1-((K-1) mod 100) rows) — the
pending remainder of rows 1..K-1 is discarded, while the wide store
still holds all of rows 1..K-1. -/
theorem c4_failure_policy_amended (pre : List BatchRow) (k : BatchRow)
    (post : List BatchRow) (hpre : ∀ r ∈ pre, rowOk r) (hk : ¬ rowOk k) :
    (parse_and_store (pre ++ k :: post)).status ≠ "PARSED" ∧
      (parse_and_store (pre ++ k :: post)).casRows = pre.map BatchRow.payload ∧
      (parse_and_store (pre ++ k :: post)).processed = pre.length ∧
      (parse_and_store (pre ++ k :: post)).pgPending = [] ∧
      (k.mapOk = false ∨ (k.pgOk = true ∧ k.casOk = false) →
        (parse_and_store (pre ++ k :: post)).status = "ERROR" ∧
        (parse_and_store (pre ++ k :: post)).errorMessage = some k.errMsg ∧
        (parse_and_store (pre ++ k :: post)).escaped = false ∧
        (parse_and_store (pre ++ k :: post)).pgCommitted =
          pre.map BatchRow.payload ++
            (if k.mapOk && k.pgOk then [k.payload] else [])) ∧
      (k.mapOk = true ∧ k.pgOk = false →
        (parse_and_store (pre ++ k :: post)).status = "PARSING" ∧
        (parse_and_store (pre ++ k :: post)).errorMessage = none ∧
        (parse_and_store (pre ++ k :: post)).escaped = true ∧
        (parse_and_store (pre ++ k :: post)).pgCommitted =
          (pre.map BatchRow.payload).take (pre.length - pre.length % 100)) := by
  obtain ⟨f1, f2, f3, f4, f5, f6, f7⟩ := advanceRows_fields pre initialBatchState
  obtain ⟨g1, g2⟩ := advanceRows_init_commit pre
  have F5 : (advanceRows pre initialBatchState).casRows =
      pre.map BatchRow.payload := by
    simpa [initialBatchState] using f5
  have F6 : (advanceRows pre initialBatchState).processed = pre.length := by
    simpa [initialBatchState] using f6
  have F7 : (advanceRows pre initialBatchState).pgCommitted ++
      (advanceRows pre initialBatchState).pgPending =
      pre.map BatchRow.payload := by
    simpa [initialBatchState] using f7
  have hps : parse_and_store (pre ++ k :: post) =
      processRows (pre ++ k :: post).length (k :: post)
        (advanceRows pre initialBatchState) := by
    rw [parse_and_store,
      if_neg (show ¬ ((pre ++ k :: post).isEmpty = true) by simp)]
    exact processRows_append_ok _ pre (k :: post) initialBatchState hpre
  rw [hps, processRows_fail_step (pre ++ k :: post).length k post
    (advanceRows pre initialBatchState) hk]
  cases hm : k.mapOk <;> cases hp : k.pgOk
  -- mapping failure: healthy transaction, ERROR recorded, pending committed
  case false.false | false.true =>
    rw [if_pos rfl,
      setError_healthy (advanceRows pre initialBatchState) k.errMsg f3]
    refine ⟨by show ("ERROR" : String) ≠ "PARSED"; decide, F5, F6, rfl, ?_, ?_⟩
    · intro _
      exact ⟨rfl, rfl, f4, F7.trans (by simp)⟩
    · intro h
      simp at h
  -- narrow-store insert failure: aborted transaction, rollback, escape
  case true.false =>
    rw [if_neg (by decide), if_pos rfl,
      setError_aborted
        { advanceRows pre initialBatchState with pgAborted := true }
        k.errMsg rfl]
    refine ⟨fun h => absurd (f1.symm.trans h) (by decide), F5, F6, rfl, ?_, ?_⟩
    · intro h
      rcases h with h | ⟨h, -⟩ <;> simp at h
    · intro _
      exact ⟨f1, f2, rfl, g1⟩
  -- wide-store insert failure: healthy transaction, row K's narrow insert pending
  case true.true =>
    rw [if_neg (by decide), if_neg (by decide),
      setError_healthy
        { advanceRows pre initialBatchState with
          pgPending := (advanceRows pre initialBatchState).pgPending ++ [k.payload] }
        k.errMsg f3]
    refine ⟨by show ("ERROR" : String) ≠ "PARSED"; decide, F5, F6, rfl, ?_, ?_⟩
    · intro _
      refine ⟨rfl, rfl, f4, ?_⟩
      have h7 : (advanceRows pre initialBatchState).pgCommitted ++
          ((advanceRows pre initialBatchState).pgPending ++ [k.payload]) =
          pre.map BatchRow.payload ++ [k.payload] := by
        rw [← List.append_assoc, F7]
      exact h7.trans (by simp)
    · intro h
      simp at h

/-- C4 (witness): the amended policy at a concrete batch whose third row
fails its PostgreSQL insert after two successful rows: the batch stays
PARSING with no message, the exception escapes, the narrow store is
rolled back to the last checkpoint (empty here), and the wide store
keeps rows 1-2. -/
theorem c4_failure_policy_amended_witness :
    (parse_and_store ([⟨1, true, true, true, "r1"⟩, ⟨2, true, true, true, "r2"⟩] ++
        ⟨3, true, false, true, "pg insert failed"⟩ ::
          [⟨4, true, true, true, "r4"⟩])).status ≠ "PARSED" ∧
      (parse_and_store ([⟨1, true, true, true, "r1"⟩, ⟨2, true, true, true, "r2"⟩] ++
        ⟨3, true, false, true, "pg insert failed"⟩ ::
          [⟨4, true, true, true, "r4"⟩])).casRows =
        ([⟨1, true, true, true, "r1"⟩, ⟨2, true, true, true, "r2"⟩] :
          List BatchRow).map BatchRow.payload ∧
      (parse_and_store ([⟨1, true, true, true, "r1"⟩, ⟨2, true, true, true, "r2"⟩] ++
        ⟨3, true, false, true, "pg insert failed"⟩ ::
          [⟨4, true, true, true, "r4"⟩])).processed =
        ([⟨1, true, true, true, "r1"⟩, ⟨2, true, true, true, "r2"⟩] :
          List BatchRow).length ∧
      (parse_and_store ([⟨1, true, true, true, "r1"⟩, ⟨2, true, true, true, "r2"⟩] ++
        ⟨3, true, false, true, "pg insert failed"⟩ ::
          [⟨4, true, true, true, "r4"⟩])).pgPending = [] ∧
      ((⟨3, true, false, true, "pg insert failed"⟩ : BatchRow).mapOk = false ∨
        ((⟨3, true, false, true, "pg insert failed"⟩ : BatchRow).pgOk = true ∧
          (⟨3, true, false, true, "pg insert failed"⟩ : BatchRow).casOk = false) →
        (parse_and_store ([⟨1, true, true, true, "r1"⟩, ⟨2, true, true, true, "r2"⟩] ++
          ⟨3, true, false, true, "pg insert failed"⟩ ::
            [⟨4, true, true, true, "r4"⟩])).status = "ERROR" ∧
        (parse_and_store ([⟨1, true, true, true, "r1"⟩, ⟨2, true, true, true, "r2"⟩] ++
          ⟨3, true, false, true, "pg insert failed"⟩ ::
            [⟨4, true, true, true, "r4"⟩])).errorMessage =
          some (⟨3, true, false, true, "pg insert failed"⟩ : BatchRow).errMsg ∧
        (parse_and_store ([⟨1, true, true, true, "r1"⟩, ⟨2, true, true, true, "r2"⟩] ++
          ⟨3, true, false, true, "pg insert failed"⟩ ::
            [⟨4, true, true, true, "r4"⟩])).escaped = false ∧
        (parse_and_store ([⟨1, true, true, true, "r1"⟩, ⟨2, true, true, true, "r2"⟩] ++
          ⟨3, true, false, true, "pg insert failed"⟩ ::
            [⟨4, true, true, true, "r4"⟩])).pgCommitted =
          ([⟨1, true, true, true, "r1"⟩, ⟨2, true, true, true, "r2"⟩] :
              List BatchRow).map BatchRow.payload ++
            (if (⟨3, true, false, true, "pg insert failed"⟩ : BatchRow).mapOk &&
                (⟨3, true, false, true, "pg insert failed"⟩ : BatchRow).pgOk then
              [(⟨3, true, false, true, "pg insert failed"⟩ : BatchRow).payload]
            else [])) ∧
      ((⟨3, true, false, true, "pg insert failed"⟩ : BatchRow).mapOk = true ∧
        (⟨3, true, false, true, "pg insert failed"⟩ : BatchRow).pgOk = false →
        (parse_and_store ([⟨1, true, true, true, "r1"⟩, ⟨2, true, true, true, "r2"⟩] ++
          ⟨3, true, false, true, "pg insert failed"⟩ ::
            [⟨4, true, true, true, "r4"⟩])).status = "PARSING" ∧
        (parse_and_store ([⟨1, true, true, true, "r1"⟩, ⟨2, true, true, true, "r2"⟩] ++
          ⟨3, true, false, true, "pg insert failed"⟩ ::
            [⟨4, true, true, true, "r4"⟩])).errorMessage = none ∧
        (parse_and_store ([⟨1, true, true, true, "r1"⟩, ⟨2, true, true, true, "r2"⟩] ++
          ⟨3, true, false, true, "pg insert failed"⟩ ::
            [⟨4, true, true, true, "r4"⟩])).escaped = true ∧
        (parse_and_store ([⟨1, true, true, true, "r1"⟩, ⟨2, true, true, true, "r2"⟩] ++
          ⟨3, true, false, true, "pg insert failed"⟩ ::
            [⟨4, true, true, true, "r4"⟩])).pgCommitted =
          (([⟨1, true, true, true, "r1"⟩, ⟨2, true, true, true, "r2"⟩] :
              List BatchRow).map BatchRow.payload).take
            (([⟨1, true, true, true, "r1"⟩, ⟨2, true, true, true, "r2"⟩] :
              List BatchRow).length -
              ([⟨1, true, true, true, "r1"⟩, ⟨2, true, true, true, "r2"⟩] :
                List BatchRow).length % 100)) :=
  c4_failure_policy_amended
    [⟨1, true, true, true, "r1"⟩, ⟨2, true, true, true, "r2"⟩]
    ⟨3, true, false, true, "pg insert failed"⟩
    [⟨4, true, true, true, "r4"⟩] (by decide) (by decide)

end ECard
